import Mathlib

/-!
Verification of the chat/admin client of `local-smart-portfolio`.

The definitions below are a shallow embedding of the frontend source:
`frontend/hooks/useChat.ts` (the `sendMessage` SSE read loop and request
construction), `frontend/lib/api.ts` (the `ApiClient` request shapes and the
`HealthStatus` type), the session-aware API module (`isAdminKeyConfigured`,
`getAdminKey`), `frontend/app/admin/page.tsx` (the `ApiKeyGate` and the
mount-time session check), and `ChatInput` (send-button enabling).

JavaScript strings are modelled as `List Char`; `JSON.parse` (an external
library call of which the hook only ever reads the `chunk` field, testing it
for truthiness) is modelled as an abstract function into `ParseResult`.
-/

namespace Portfolio

/-- JavaScript strings, modelled character by character. -/
abbrev Str := List Char

/-- A chat message as held in the `messages` React state
(`\x7brole, content, timestamp\x7d` in `types.ts`); the timestamp is opaque
to everything we verify and is modelled as a `Nat`. -/
structure ChatMsg where
  role : String
  content : Str
  timestamp : Nat
deriving DecidableEq, Repr

/-- A history entry of the `/chat/stream` request body: `sendMessage` projects
each message to exactly the fields `role` and `content`. -/
structure HistoryEntry where
  role : String
  content : Str
deriving DecidableEq, Repr

/-- Outcome of `JSON.parse` on an SSE data payload, as observed by `useChat`:
either the parse throws (`err`, caught and skipped by the hook), or it
yields a value whose `chunk` field is the given string (`ok (some c)`), or a
value with no usable `chunk` field (`ok none`, e.g. `chunk` absent or null).
The hook tests `chunk.chunk` for truthiness, so an empty string chunk
behaves like `ok none`. -/
inductive ParseResult where
  | err : ParseResult
  | ok : Option Str → ParseResult
deriving DecidableEq, Repr

/-- The environment's `JSON.parse` restricted to what the hook reads. -/
abbrev Parse := Str → ParseResult

/-- `buffer.split("\n")`: splits at every newline; always returns at least one
(possibly empty) segment, exactly like the JavaScript `String.prototype.split`
with a single-character separator. -/
def splitOnNl : Str → List Str
  | [] => [[]]
  | c :: rest =>
    if c = '\n' then [] :: splitOnNl rest
    else
      match splitOnNl rest with
      | [] => [[c]]
      | h :: t => (c :: h) :: t

/-- The `setMessages` updater of the second branch of the hook: copy the
array and overwrite the last element's `content` (guarded by a non-emptiness
check in the source; on `[]` nothing happens). -/
def updateLast : List ChatMsg → Str → List ChatMsg
  | [], _ => []
  | [m], c => [{ m with content := c }]
  | m :: m2 :: rest, c => m :: updateLast (m2 :: rest) c

/-- The local state of the `sendMessage` read loop: the carry-over `buffer`,
the accumulated `assistantContent`, the `messageAdded` flag, and the
`messages` React state it updates. -/
structure StreamState where
  buffer : Str
  assistantContent : Str
  messageAdded : Bool
  messages : List ChatMsg
deriving DecidableEq, Repr

/-- The body of `if (chunk.chunk) \x7b ... \x7d` in `useChat.ts`: extend
`assistantContent`; on the first chunk push a fresh assistant message, on
later chunks rewrite the last message's content. -/
def appendChunk (st : StreamState) (c : Str) : StreamState :=
  let newContent := st.assistantContent ++ c
  if st.messageAdded then
    { st with
      assistantContent := newContent
      messages := updateLast st.messages newContent }
  else
    { st with
      assistantContent := newContent
      messageAdded := true
      messages := st.messages ++ [⟨"assistant", newContent, 0⟩] }

/-- The `for (const line of lines)` loop of `sendMessage`: lines not starting
with `"data: "` are ignored; the payload is `line.slice(6)`; the literal
`[DONE]` payload executes `break` (ending this loop, i.e. this batch only);
a payload that fails to parse, or parses without a truthy `chunk` field, is
skipped. -/
def processLines (parse : Parse) : List Str → StreamState → StreamState
  | [], st => st
  | line :: rest, st =>
    if "data: ".toList <+: line then
      if line.drop 6 = "[DONE]".toList then st
      else
        match parse (line.drop 6) with
        | ParseResult.ok (some c) =>
          if c = [] then processLines parse rest st
          else processLines parse rest (appendChunk st c)
        | _ => processLines parse rest st
    else processLines parse rest st

/-- One iteration of the `while (true)` read loop: append the decoded bytes
to the buffer, split on newlines, keep the final (possibly incomplete)
segment as the new buffer (`buffer = lines.pop() || ""`), and process the
complete lines. -/
def processRead (parse : Parse) (st : StreamState) (data : Str) : StreamState :=
  { processLines parse (splitOnNl (st.buffer ++ data)).dropLast st with
    buffer := (splitOnNl (st.buffer ++ data)).getLastD [] }

/-- The loop state at `reader.read()` number zero. -/
def initialStream (msgs : List ChatMsg) : StreamState :=
  ⟨[], [], false, msgs⟩

/-- The whole read loop of `sendMessage`: fold the per-read step over the
sequence of decoded network reads. -/
def processStream (parse : Parse) (msgs : List ChatMsg) (reads : List Str) : StreamState :=
  reads.foldl (processRead parse) (initialStream msgs)

/-- JavaScript whitespace, as far as `String.prototype.trim` and the inputs
in play are concerned. -/
def isJsWhitespace (c : Char) : Bool :=
  c = ' ' || c = '\t' || c = '\n' || c = '\r' || c = '\x0b' || c = '\x0c'

/-- `s.trim()`: strip whitespace from both ends. -/
def trimWs (s : Str) : Str :=
  ((s.dropWhile isJsWhitespace).reverse.dropWhile isJsWhitespace).reverse

/-- `array.slice(start)` with a single, possibly negative, start index. -/
def jsSliceStart {α : Type} (l : List α) (start : Int) : List α :=
  if start < 0 then l.drop (Int.toNat ((l.length : Int) + start))
  else l.drop start.toNat

/-- The JSON body `sendMessage` posts to `/chat/stream`. -/
structure ChatRequest where
  message : Str
  history : List HistoryEntry
deriving DecidableEq, Repr

/-- The React state `sendMessage` reads and writes before the network call. -/
structure ChatState where
  messages : List ChatMsg
  inputMessage : Str
  isTyping : Bool
deriving DecidableEq, Repr

/-- The synchronous prefix of `sendMessage` (`useChat.ts` lines 55-82): an
all-whitespace input returns immediately with no request and no state change;
otherwise the user message is appended to the last `maxHistory - 1` messages
(`messages.slice(-maxHistory + 1)`), the input is cleared, typing starts, and
the request body is built with `history = currentHistory.slice(0, -1)`
projected to `\x7brole, content\x7d`. -/
def sendMessageStart (maxHistory : Nat) (st : ChatState) : ChatState × Option ChatRequest :=
  if trimWs st.inputMessage = [] then (st, none)
  else
    let userMessage : ChatMsg := ⟨"user", st.inputMessage, 0⟩
    let currentHistory := jsSliceStart st.messages (-(maxHistory : Int) + 1) ++ [userMessage]
    ( { messages := currentHistory, inputMessage := [], isTyping := true },
      some { message := userMessage.content
             history := currentHistory.dropLast.map (fun m => ⟨m.role, m.content⟩) } )

/-- The `disabled` prop of the send button in `ChatInput.tsx`:
`!value.trim() || disabled`. -/
def sendButtonDisabled (value : Str) (disabled : Bool) : Bool :=
  (trimWs value).isEmpty || disabled

/-- The observable part of one `fetch` issued by `ApiClient` (`lib/api.ts`):
HTTP method, path relative to the base URL, and explicit request headers. -/
structure ApiRequest where
  method : String
  path : String
  headers : List (String × String)
deriving DecidableEq, Repr

/-- `ApiClient.getHealth`: a plain GET of `/health` with no explicit headers. -/
def getHealthRequest : ApiRequest :=
  ⟨"GET", "/health", []⟩

/-- `ApiClient.uploadDocument`: POST `/ingest` with the admin header (the
multipart body is irrelevant to the header claims). -/
def uploadDocumentRequest (adminKey : String) : ApiRequest :=
  ⟨"POST", "/ingest", [("X-Admin-Key", adminKey)]⟩

/-- `ApiClient.getDocuments`: GET `/admin/documents` with the admin header. -/
def getDocumentsRequest (adminKey : String) : ApiRequest :=
  ⟨"GET", "/admin/documents", [("X-Admin-Key", adminKey)]⟩

/-- `ApiClient.deleteDocument`: DELETE of the per-document path with the
admin header. -/
def deleteDocumentRequest (adminKey : String) (documentId : String) : ApiRequest :=
  ⟨"DELETE", "/admin/documents/" ++ documentId, [("X-Admin-Key", adminKey)]⟩

/-- `ApiClient.getStats`: GET `/admin/stats` with the admin header. -/
def getStatsRequest (adminKey : String) : ApiRequest :=
  ⟨"GET", "/admin/stats", [("X-Admin-Key", adminKey)]⟩

/-- The four admin-endpoint requests the `ApiClient` can issue. -/
def adminRequests (adminKey : String) (documentId : String) : List ApiRequest :=
  [ uploadDocumentRequest adminKey
  , getDocumentsRequest adminKey
  , deleteDocumentRequest adminKey documentId
  , getStatsRequest adminKey ]

/-- `isAdminKeyConfigured` of the session-aware API module:
`Boolean(ADMIN_API_KEY && ADMIN_API_KEY.length >= 16)`. -/
def isAdminKeyConfigured (adminApiKey : Str) : Bool :=
  !adminApiKey.isEmpty && decide (16 ≤ adminApiKey.length)

/-- `getAdminKey`: return the session-storage key when present and truthy,
otherwise fall back to the environment key
(`sessionStorage.getItem` yields `null`, modelled as `none`). -/
def getAdminKey (sessionKey : Option Str) (envKey : Str) : Str :=
  match sessionKey with
  | some k => if !k.isEmpty then k else envKey
  | none => envKey

/-- The `disabled` prop of the `Access Dashboard` button of `ApiKeyGate`:
`!apiKey || apiKey.length < 16 || isChecking`. -/
def accessButtonDisabled (apiKey : Str) (isChecking : Bool) : Bool :=
  apiKey.isEmpty || decide (apiKey.length < 16) || isChecking

/-- The auth-relevant outcome of an admin-page flow: the content of
`sessionStorage.admin_api_key` afterwards, the `isAuthenticated` flag, and
the `adminApiKey` state. -/
structure AdminAuthOutcome where
  storedKey : Option Str
  isAuthenticated : Bool
  adminApiKey : Str
deriving DecidableEq, Repr

/-- The mount-time session check of `AdminPage`: a stored key is considered
only when truthy and at least 16 characters; it is then re-validated
server-side (`validate` abstracts the `GET /admin/stats` round trip of
`validateApiKey`); a failing key is removed from session storage. -/
def adminMountCheck (stored : Option Str) (validate : Str → Bool) : AdminAuthOutcome :=
  match stored with
  | some k =>
    if !k.isEmpty && decide (16 ≤ k.length) then
      if validate k then ⟨some k, true, k⟩
      else ⟨none, false, []⟩
    else ⟨some k, false, []⟩
  | none => ⟨none, false, []⟩

/-- `handleSubmit` of `ApiKeyGate`: validate server-side; only a validated
key is written to session storage and propagated via `onSuccess`. -/
def apiKeyGateSubmit (prior : Option Str) (apiKey : Str) (validate : Str → Bool) : AdminAuthOutcome :=
  if validate apiKey then ⟨some apiKey, true, apiKey⟩
  else ⟨prior, false, []⟩

/-- The `autoValidateEnvKey` effect of `ApiKeyGate`: a configured environment
key is validated server-side before being stored and used. -/
def apiKeyGateEnvCheck (prior : Option Str) (envKey : Str) (validate : Str → Bool) : AdminAuthOutcome :=
  if isAdminKeyConfigured envKey then
    if validate envKey then ⟨some envKey, true, envKey⟩
    else ⟨prior, false, []⟩
  else ⟨prior, false, []⟩

/-- The `services` object of the `HealthStatus` interface in `lib/api.ts`. -/
structure HealthServices where
  ollama : String
  chromadb : String
deriving DecidableEq, Repr

/-- The `HealthStatus` interface in `lib/api.ts`: the type of the parsed
`GET /health` response as consumed by the client. -/
structure HealthStatus where
  status : String
  version : String
  timestamp : String
  services : HealthServices
deriving DecidableEq, Repr

/-- The field names of `HealthStatus.services` as declared in `lib/api.ts`
and dereferenced by the admin dashboard. -/
def healthServiceKeys : List String :=
  ["ollama", "chromadb"]

/-- Modelled from the spec: the service field names the spec's `/health` row
claims (`services: \x7bllm, vector_store\x7d`). -/
def specHealthServiceKeys : List String :=
  ["llm", "vector_store"]

/-- The Ollama badge of the admin dashboard:
`health?.services?.ollama === "connected"` renders Online. -/
def ollamaBadgeOnline (health : Option HealthStatus) : Bool :=
  match health with
  | some h => h.services.ollama == "connected"
  | none => false

/-- The ChromaDB badge of the admin dashboard:
`health?.services?.chromadb === "connected"` renders Online. -/
def chromadbBadgeOnline (health : Option HealthStatus) : Bool :=
  match health with
  | some h => h.services.chromadb == "connected"
  | none => false

/-- A concrete intermediate SSE payload carrying the chunk `Hel`. -/
def payloadHel : Str :=
  "\x7b\"chunk\": \"Hel\", \"done\": false, \"sources\": null\x7d".toList

/-- A concrete intermediate SSE payload carrying the chunk `lo`. -/
def payloadLo : Str :=
  "\x7b\"chunk\": \"lo\", \"done\": false, \"sources\": null\x7d".toList

/-- A concrete terminal SSE payload (`done: true`, empty chunk). -/
def payloadTerminal : Str :=
  "\x7b\"chunk\": \"\", \"done\": true, \"sources\": []\x7d".toList

/-- `JSON.parse` evaluated on the three concrete payloads above, as the real
parser would behave on them; anything else is treated as a parse error. -/
def parseDemo : Parse := fun p =>
  if p = payloadHel then ParseResult.ok (some "Hel".toList)
  else if p = payloadLo then ParseResult.ok (some "lo".toList)
  else if p = payloadTerminal then ParseResult.ok (some [])
  else ParseResult.err

/-- The effect of a single well-framed SSE event (one complete `data:` line
whose payload is not the `[DONE]` sentinel) on the loop state: exactly the
inner branch of `processLines` for that one line. -/
def applyEvent (parse : Parse) (st : StreamState) (p : Str) : StreamState :=
  match parse p with
  | ParseResult.ok (some c) => if c = [] then st else appendChunk st c
  | _ => st

/-- The invariant the read loop maintains relative to the messages present
when the stream started: the buffer holds no complete line, and either no
assistant bubble has been added yet (no truthy chunk so far) or exactly one
has, whose content is the accumulated `assistantContent`. -/
def GoodState (init : List ChatMsg) (st : StreamState) : Prop :=
  st.buffer = [] ∧
  ((st.messageAdded = false ∧ st.assistantContent = [] ∧ st.messages = init) ∨
   (st.messageAdded = true ∧ st.assistantContent ≠ [] ∧
     st.messages = init ++ [⟨"assistant", st.assistantContent, 0⟩]))

/-- Eleven concrete chat messages, one more than the default `maxHistory`. -/
def messagesW : List ChatMsg :=
  (List.range 11).map (fun i => ⟨"user", [Char.ofNat (97 + i)], i⟩)

/-- A concrete pre-send chat state with eleven prior messages. -/
def chatStateW : ChatState :=
  ⟨messagesW, "hi".toList, false⟩

/-- The request `sendMessage` builds from `chatStateW` with the default
`maxHistory` of 10: the oldest two messages are dropped. -/
def chatRequestW : ChatRequest :=
  ⟨"hi".toList, (messagesW.drop 2).map (fun m => ⟨m.role, m.content⟩)⟩

/-- A 4001-character input message. -/
def longInput : Str :=
  List.replicate 4001 'a'

/-! Helper lemmas about the embedded definitions. -/

theorem splitOnNl_ne_nil (s : Str) : splitOnNl s ≠ [] := by
  induction s with
  | nil => simp [splitOnNl]
  | cons c rest ih =>
    simp only [splitOnNl]
    split
    · simp
    · cases h : splitOnNl rest with
      | nil => exact absurd h ih
      | cons a t => simp [h]

theorem splitOnNl_of_not_mem {s : Str} (h : '\n' ∉ s) : splitOnNl s = [s] := by
  induction s with
  | nil => rfl
  | cons c rest ih =>
    have hc : ¬ c = '\n' := fun hc => h (hc ▸ List.mem_cons_self c rest)
    have hrest : '\n' ∉ rest := fun hm => h (List.mem_cons_of_mem c hm)
    simp only [splitOnNl, if_neg (fun hcc => hc hcc), ih hrest]

theorem splitOnNl_append_cons {s : Str} (t : Str) (h : '\n' ∉ s) :
    splitOnNl (s ++ '\n' :: t) = s :: splitOnNl t := by
  induction s with
  | nil => simp [splitOnNl]
  | cons c rest ih =>
    have hc : ¬ c = '\n' := fun hc => h (hc ▸ List.mem_cons_self c rest)
    have hrest : '\n' ∉ rest := fun hm => h (List.mem_cons_of_mem c hm)
    simp only [List.cons_append, splitOnNl, if_neg (fun hcc => hc hcc)]
    rw [show rest.append ('\n' :: t) = rest ++ '\n' :: t from rfl, ih hrest]

theorem processRead_no_newline (parse : Parse) (st : StreamState) (x : Str)
    (hb : '\n' ∉ st.buffer) (hx : '\n' ∉ x) :
    processRead parse st x = { st with buffer := st.buffer ++ x } := by
  have hbx : '\n' ∉ st.buffer ++ x := by
    intro hm
    rcases List.mem_append.1 hm with hm | hm
    · exact hb hm
    · exact hx hm
  simp [processRead, splitOnNl_of_not_mem hbx, processLines]

theorem appendChunk_set_buffer (st : StreamState) (b c : Str) :
    appendChunk { st with buffer := b } c = { appendChunk st c with buffer := b } := by
  simp only [appendChunk]
  split <;> rfl

theorem processLines_set_buffer (parse : Parse) (lines : List Str) (st : StreamState) (b : Str) :
    processLines parse lines { st with buffer := b } =
    { processLines parse lines st with buffer := b } := by
  induction lines generalizing st with
  | nil => rfl
  | cons line rest ih =>
    simp only [processLines]
    repeat' split
    all_goals first
      | rfl
      | exact ih st
      | (rw [appendChunk_set_buffer]; exact ih _)

theorem updateLast_append (l : List ChatMsg) (m : ChatMsg) (c : Str) :
    updateLast (l ++ [m]) c = l ++ [{ m with content := c }] := by
  induction l with
  | nil => rfl
  | cons a l ih =>
    cases hl : l ++ [m] with
    | nil => exact absurd hl (by simp)
    | cons b t =>
      simp only [List.cons_append, hl, updateLast]
      rw [← hl, ih]

theorem processLines_done_cons (parse : Parse) (rest : List Str) (st : StreamState) :
    processLines parse ("data: [DONE]".toList :: rest) st = st := by
  rfl

theorem processLines_break (parse : Parse) (pre post : List Str) (st : StreamState) :
    processLines parse (pre ++ "data: [DONE]".toList :: post) st =
    processLines parse (pre ++ ["data: [DONE]".toList]) st := by
  induction pre generalizing st with
  | nil => rfl
  | cons line pre ih =>
    simp only [List.cons_append, processLines]
    repeat' split
    all_goals first | rfl | exact ih st | exact ih _

theorem appendChunk_buffer (st : StreamState) (c : Str) :
    (appendChunk st c).buffer = st.buffer := by
  simp only [appendChunk]
  split <;> rfl

theorem appendChunk_good {init : List ChatMsg} {st : StreamState} {c : Str}
    (h : GoodState init st) (hc : c ≠ []) :
    GoodState init (appendChunk st c) ∧
    (appendChunk st c).assistantContent = st.assistantContent ++ c := by
  obtain ⟨hbuf, hcase⟩ := h
  rcases hcase with ⟨hma, hac, hm⟩ | ⟨hma, hac, hm⟩
  · refine ⟨⟨?_, Or.inr ⟨?_, ?_, ?_⟩⟩, ?_⟩ <;>
      simp [appendChunk, hma, hac, hm, hbuf, hc]
  · refine ⟨⟨?_, Or.inr ⟨?_, ?_, ?_⟩⟩, ?_⟩ <;>
      simp [appendChunk, hma, hm, hbuf, updateLast_append, hac]

theorem applyEvent_step {init : List ChatMsg} {st : StreamState} {c : Str}
    (parse : Parse) (p : Str) (h : GoodState init st)
    (hp : parse p = ParseResult.ok (some c)) :
    GoodState init (applyEvent parse st p) ∧
    (applyEvent parse st p).assistantContent = st.assistantContent ++ c := by
  by_cases hc : c = []
  · subst hc
    simp [applyEvent, hp, h]
  · simp only [applyEvent, hp, if_neg hc]
    exact appendChunk_good h hc

theorem set_buffer_self (st : StreamState) (h : st.buffer = []) :
    { st with buffer := ([] : Str) } = st := by
  cases st
  simp_all

theorem processRead_event (parse : Parse) (st : StreamState) (p : Str)
    (hbuf : st.buffer = []) (hnl : '\n' ∉ p) (hdone : p ≠ "[DONE]".toList) :
    processRead parse st ("data: ".toList ++ p ++ ['\n']) =
    { applyEvent parse st p with buffer := ([] : Str) } := by
  have hnp : '\n' ∉ "data: ".toList ++ p := by
    intro hm
    rcases List.mem_append.1 hm with hm | hm
    · exact absurd hm (by decide)
    · exact hnl hm
  have hsplit : splitOnNl (st.buffer ++ ("data: ".toList ++ p ++ ['\n'])) =
      [("data: ".toList ++ p), []] := by
    rw [hbuf, List.nil_append, splitOnNl_append_cons ([] : Str) hnp]
    rfl
  have hdrop : ("data: ".toList ++ p).drop 6 = p := by
    rw [show (6 : Nat) = ("data: ".toList).length from rfl]
    exact List.drop_left _ _
  have h1 : (splitOnNl (st.buffer ++ ("data: ".toList ++ p ++ ['\n']))).dropLast =
      [("data: ".toList ++ p)] := by
    rw [hsplit]
    rfl
  have h2 : (splitOnNl (st.buffer ++ ("data: ".toList ++ p ++ ['\n']))).getLastD ([] : Str) = [] := by
    rw [hsplit]
    rfl
  suffices hcore : processLines parse [("data: ".toList ++ p)] st = applyEvent parse st p by
    simp only [processRead, h1, h2, hcore]
  simp only [processLines, List.prefix_append, if_true, hdrop, if_neg hdone, applyEvent]

theorem applyEvent_buffer (parse : Parse) (st : StreamState) (p : Str) :
    (applyEvent parse st p).buffer = st.buffer := by
  simp only [applyEvent]
  repeat' split
  all_goals first | rfl | exact appendChunk_buffer st _

theorem foldl_events (parse : Parse) (init : List ChatMsg) (events : List (Str × Str))
    (st : StreamState) (hst : GoodState init st)
    (hev : ∀ pc ∈ events, parse pc.1 = ParseResult.ok (some pc.2) ∧
      pc.1 ≠ "[DONE]".toList ∧ '\n' ∉ pc.1) :
    GoodState init
      ((events.map (fun pc => "data: ".toList ++ pc.1 ++ ['\n'])).foldl (processRead parse) st) ∧
    ((events.map (fun pc => "data: ".toList ++ pc.1 ++ ['\n'])).foldl
        (processRead parse) st).assistantContent
      = st.assistantContent ++ (events.map Prod.snd).flatten := by
  induction events generalizing st hst with
  | nil => exact ⟨hst, by simp⟩
  | cons pc rest ih =>
    obtain ⟨hp, hd, hn⟩ := hev pc (List.mem_cons_self _ _)
    have happ := applyEvent_step parse pc.1 hst hp
    have hstep : processRead parse st ("data: ".toList ++ pc.1 ++ ['\n']) =
        applyEvent parse st pc.1 := by
      rw [processRead_event parse st pc.1 hst.1 hn hd]
      exact set_buffer_self _ (by rw [applyEvent_buffer]; exact hst.1)
    have hevr : ∀ pc2 ∈ rest, parse pc2.1 = ParseResult.ok (some pc2.2) ∧
        pc2.1 ≠ "[DONE]".toList ∧ '\n' ∉ pc2.1 :=
      fun pc2 hm => hev pc2 (List.mem_cons_of_mem _ hm)
    obtain ⟨hg, hc⟩ := ih (applyEvent parse st pc.1) happ.1 hevr
    constructor
    · rw [List.map_cons, List.foldl_cons, hstep]
      exact hg
    · rw [List.map_cons, List.foldl_cons, hstep, hc, happ.2, List.map_cons,
        List.flatten_cons, List.append_assoc]

/-! Claim theorems. -/

/-- Claim C1, counterexample: a `[DONE]` sentinel line delivered in its own
network read does not end chunk handling for the response — a chunk event
delivered in a later read of the same response is still appended to the
assistant content, while the claim demands that nothing be appended after the
sentinel. -/
theorem c1_counterexample :
    (processStream parseDemo []
        ["data: [DONE]\n".toList,
         "data: ".toList ++ payloadHel ++ ['\n']]).assistantContent = "Hel".toList ∧
    "Hel".toList ≠ ([] : Str) := by
  constructor
  · decide
  · decide

/-- Claim C1, amended: the `break` on `[DONE]` exits only the per-batch line
loop — no line after the sentinel within the same decoded read is processed,
and a read consisting of just the sentinel line leaves the loop state exactly
unchanged, so events arriving in later reads of the same response are still
processed as usual. -/
theorem c1_done_sentinel_scope :
    (∀ (parse : Parse) (pre post : List Str) (st : StreamState),
        processLines parse (pre ++ "data: [DONE]".toList :: post) st =
        processLines parse (pre ++ ["data: [DONE]".toList]) st) ∧
    (∀ (parse : Parse) (msgs : List ChatMsg) (rest : List Str),
        processStream parse msgs ("data: [DONE]\n".toList :: rest) =
        processStream parse msgs rest) := by
  constructor
  · exact fun parse pre post st => processLines_break parse pre post st
  · intro parse msgs rest
    rfl

/-- Claim C2: for a well-formed `/chat/stream` event sequence — intermediate
chunk events followed by the terminal `done: true` event, each framed as its
own complete `data:` line — the assistant content when the stream ends is
exactly the in-order concatenation of the intermediate chunk fields (no
reorder, no drop, no duplication), and the messages list gains exactly the
one assistant bubble carrying it (none when the concatenation is empty). -/
theorem c2_stream_concatenation (parse : Parse) (init : List ChatMsg)
    (events : List (Str × Str)) (pt : Str)
    (hev : ∀ pc ∈ events, parse pc.1 = ParseResult.ok (some pc.2) ∧
      pc.1 ≠ "[DONE]".toList ∧ '\n' ∉ pc.1)
    (hpt : parse pt = ParseResult.ok (some []))
    (hptd : pt ≠ "[DONE]".toList) (hptn : '\n' ∉ pt) :
    (processStream parse init
        (events.map (fun pc => "data: ".toList ++ pc.1 ++ ['\n'])
          ++ ["data: ".toList ++ pt ++ ['\n']])).assistantContent
      = (events.map Prod.snd).flatten ∧
    (processStream parse init
        (events.map (fun pc => "data: ".toList ++ pc.1 ++ ['\n'])
          ++ ["data: ".toList ++ pt ++ ['\n']])).messages
      = (if (events.map Prod.snd).flatten = [] then init
         else init ++ [⟨"assistant", (events.map Prod.snd).flatten, 0⟩]) := by
  have hinit : GoodState init (initialStream init) := ⟨rfl, Or.inl ⟨rfl, rfl, rfl⟩⟩
  obtain ⟨hg, hc⟩ := foldl_events parse init events (initialStream init) hinit hev
  have hcontent :
      ((events.map (fun pc => "data: ".toList ++ pc.1 ++ ['\n'])).foldl
        (processRead parse) (initialStream init)).assistantContent
      = (events.map Prod.snd).flatten := by
    simpa using hc
  have hterm :
      processRead parse
        ((events.map (fun pc => "data: ".toList ++ pc.1 ++ ['\n'])).foldl
          (processRead parse) (initialStream init))
        ("data: ".toList ++ pt ++ ['\n'])
      = (events.map (fun pc => "data: ".toList ++ pc.1 ++ ['\n'])).foldl
          (processRead parse) (initialStream init) := by
    rw [processRead_event parse _ pt hg.1 hptn hptd]
    have happt : applyEvent parse
        ((events.map (fun pc => "data: ".toList ++ pc.1 ++ ['\n'])).foldl
          (processRead parse) (initialStream init)) pt
        = (events.map (fun pc => "data: ".toList ++ pc.1 ++ ['\n'])).foldl
            (processRead parse) (initialStream init) := by
      simp [applyEvent, hpt]
    rw [happt]
    exact set_buffer_self _ hg.1
  have hfin :
      processStream parse init
        (events.map (fun pc => "data: ".toList ++ pc.1 ++ ['\n'])
          ++ ["data: ".toList ++ pt ++ ['\n']])
      = (events.map (fun pc => "data: ".toList ++ pc.1 ++ ['\n'])).foldl
          (processRead parse) (initialStream init) := by
    unfold processStream
    rw [List.foldl_append, List.foldl_cons, List.foldl_nil, hterm]
  constructor
  · rw [hfin, hcontent]
  · rw [hfin]
    rcases hg.2 with ⟨_, hac, hm⟩ | ⟨_, hac, hm⟩
    · rw [if_pos (by rw [← hcontent]; exact hac), hm]
    · rw [if_neg (by rw [← hcontent]; exact hac), hm, hcontent]

/-- Claim C2, witness: a concrete two-chunk stream followed by the terminal
event yields the assistant content `Hello`. -/
theorem c2_witness :
    (processStream parseDemo []
        ([(payloadHel, "Hel".toList), (payloadLo, "lo".toList)].map
            (fun pc => "data: ".toList ++ pc.1 ++ ['\n'])
          ++ ["data: ".toList ++ payloadTerminal ++ ['\n']])).assistantContent
      = ([(payloadHel, "Hel".toList), (payloadLo, "lo".toList)].map Prod.snd).flatten :=
  (c2_stream_concatenation parseDemo [] _ payloadTerminal
    (by decide) (by decide) (by decide) (by decide)).1

/-- Claim C3: when the conversation holds more than `maxHistory` messages
(with `maxHistory` at least 2, as in the default of 10), the `history` field
of the request body is truncated from the oldest end — at most
`maxHistory - 1` entries, the most recent prior messages in chronological
order, each projected to exactly the fields `role` and `content`. -/
theorem c3_history_truncation (maxHistory : Nat) (st : ChatState) (req : ChatRequest)
    (hmh : 2 ≤ maxHistory) (hlen : maxHistory < st.messages.length)
    (hreq : (sendMessageStart maxHistory st).2 = some req) :
    req.history.length ≤ maxHistory - 1 ∧
    req.history = (st.messages.drop (st.messages.length - (maxHistory - 1))).map
        (fun m => ⟨m.role, m.content⟩) := by
  by_cases ht : trimWs st.inputMessage = []
  · simp [sendMessageStart, ht] at hreq
  · simp only [sendMessageStart, if_neg ht] at hreq
    have hv := Option.some.inj hreq
    subst hv
    have hneg : (-(maxHistory : Int) + 1) < 0 := by omega
    have htn : Int.toNat ((st.messages.length : Int) + (-(maxHistory : Int) + 1)) =
        st.messages.length - (maxHistory - 1) := by omega
    have hhist :
        ((jsSliceStart st.messages (-(maxHistory : Int) + 1) ++
            [(⟨"user", st.inputMessage, 0⟩ : ChatMsg)]).dropLast).map
            (fun m => (⟨m.role, m.content⟩ : HistoryEntry))
          = (st.messages.drop (st.messages.length - (maxHistory - 1))).map
              (fun m => ⟨m.role, m.content⟩) := by
      rw [List.dropLast_concat]
      simp only [jsSliceStart]
      rw [if_pos hneg, htn]
    refine ⟨?_, hhist⟩
    dsimp only
    rw [hhist, List.length_map, List.length_drop]
    omega

/-- Claim C3, witness: with the default `maxHistory` of 10 and eleven prior
messages, the request history is the last nine messages projected to
`role`/`content`. -/
theorem c3_witness :
    chatRequestW.history.length ≤ 10 - 1 ∧
    chatRequestW.history =
      (chatStateW.messages.drop (chatStateW.messages.length - (10 - 1))).map
        (fun m => ⟨m.role, m.content⟩) :=
  c3_history_truncation 10 chatStateW chatRequestW (by decide) (by decide) (by decide)

/-- Claim C7: an input that is empty or all whitespace is rejected before any
network activity — `sendMessage` returns with the messages, input and typing
state untouched and produces no request, and the `ChatInput` send button is
disabled for such a value. -/
theorem c7_whitespace_rejected (maxHistory : Nat) (st : ChatState) (d : Bool)
    (h : trimWs st.inputMessage = []) :
    sendMessageStart maxHistory st = (st, none) ∧
    sendButtonDisabled st.inputMessage d = true := by
  constructor
  · simp [sendMessageStart, h]
  · simp [sendButtonDisabled, h]

/-- Claim C7, witness: the all-whitespace input is rejected and the send
button is disabled. -/
theorem c7_witness :
    sendMessageStart 10 ⟨[], "  \n ".toList, false⟩ = (⟨[], "  \n ".toList, false⟩, none) ∧
    sendButtonDisabled "  \n ".toList false = true :=
  c7_whitespace_rejected 10 ⟨[], "  \n ".toList, false⟩ false (by decide)

theorem sendMessageStart_message (maxHistory : Nat) (st : ChatState)
    (h : ¬ trimWs st.inputMessage = []) :
    (sendMessageStart maxHistory st).2.map (fun r => r.message) = some st.inputMessage := by
  simp only [sendMessageStart, if_neg h]
  rfl

/-- Claim C8, counterexample: the client enforces no upper bound on the
message length — a 4001-character input is sent as-is, violating the claimed
`at most 4000 characters`. -/
theorem c8_counterexample :
    ((sendMessageStart 10 ⟨[], longInput, false⟩).2.map (fun r => r.message.length))
      = some 4001 ∧ 4000 < 4001 := by
  have hwa : isJsWhitespace 'a' = false := by decide
  have hdw : ∀ n : Nat, (List.replicate n 'a').dropWhile isJsWhitespace =
      List.replicate n 'a' := by
    intro n
    cases n with
    | zero => rfl
    | succ n => simp [List.replicate_succ, List.dropWhile_cons, hwa]
  have htrim : trimWs longInput = longInput := by
    rw [trimWs, longInput, hdw, List.reverse_replicate, hdw, List.reverse_replicate]
  have hne : ¬ trimWs (ChatState.mk [] longInput false).inputMessage = [] := by
    show ¬ trimWs longInput = []
    rw [htrim]
    intro h
    have hl := congrArg List.length h
    rw [longInput, List.length_replicate, List.length_nil] at hl
    exact absurd hl (by decide)
  have h1 := sendMessageStart_message 10 ⟨[], longInput, false⟩ hne
  constructor
  · have h2 : ((sendMessageStart 10 ⟨[], longInput, false⟩).2.map (fun r => r.message.length))
        = ((sendMessageStart 10 ⟨[], longInput, false⟩).2.map (fun r => r.message)).map
            List.length := by
      cases (sendMessageStart 10 ⟨[], longInput, false⟩).2 <;> rfl
    rw [h2, h1]
    show some longInput.length = some 4001
    rw [show longInput.length = 4001 from by rw [longInput, List.length_replicate]]
  · omega

/-- Claim C8, amended: every request body sent to `POST /chat/stream` carries
the raw input as `message` — a non-empty string, with no upper length bound
enforced by the client — and a `history` obtained by projecting the retained
recent messages to exactly the fields `role` and `content`. -/
theorem c8_request_shape (maxHistory : Nat) (st : ChatState) (req : ChatRequest)
    (hreq : (sendMessageStart maxHistory st).2 = some req) :
    req.message = st.inputMessage ∧ req.message ≠ [] ∧
    req.history = (jsSliceStart st.messages (-(maxHistory : Int) + 1)).map
        (fun m => ⟨m.role, m.content⟩) := by
  by_cases ht : trimWs st.inputMessage = []
  · simp [sendMessageStart, ht] at hreq
  · simp only [sendMessageStart, if_neg ht] at hreq
    have hv := Option.some.inj hreq
    subst hv
    refine ⟨rfl, ?_, ?_⟩
    · intro hnil
      exact ht (by rw [show st.inputMessage = [] from hnil]; rfl)
    · dsimp only
      rw [List.dropLast_concat]

/-- Claim C8, witness: a concrete send with input `hi` and no prior
messages. -/
theorem c8_witness :
    (ChatRequest.mk "hi".toList []).message = "hi".toList ∧
    (ChatRequest.mk "hi".toList []).message ≠ [] ∧
    (ChatRequest.mk "hi".toList []).history =
      (jsSliceStart (([]) : List ChatMsg) (-(10 : Int) + 1)).map
        (fun m => ⟨m.role, m.content⟩) :=
  c8_request_shape 10 ⟨[], "hi".toList, false⟩ ⟨"hi".toList, []⟩ (by decide)

/-- Claim C4: every request the `ApiClient` issues to an admin endpoint
(`POST /ingest`, `GET /admin/documents`, `DELETE /admin/documents/id`,
`GET /admin/stats`) carries exactly the `X-Admin-Key` header set to the
configured admin key, while the unauthenticated `GET /health` request
carries no header at all. -/
theorem c4_admin_header (adminKey documentId : String) :
    ((adminRequests adminKey documentId).all
        (fun r => r.headers == [("X-Admin-Key", adminKey)])) = true ∧
    getHealthRequest.headers = [] := by
  constructor
  · simp [adminRequests, uploadDocumentRequest, getDocumentsRequest,
      deleteDocumentRequest, getStatsRequest]
  · rfl

/-- Claim C5: an admin key is accepted by the client only at length 16 or
more — `isAdminKeyConfigured` is true exactly for a non-empty key of length
at least 16, the gate's submit button is disabled for any shorter key, and a
session-stored key can authenticate on mount only when its length is at
least 16. -/
theorem c5_admin_key_length :
    (∀ k : Str, isAdminKeyConfigured k = true ↔ (k ≠ [] ∧ 16 ≤ k.length)) ∧
    (∀ (k : Str) (c : Bool), k.length < 16 → accessButtonDisabled k c = true) ∧
    (∀ (stored : Str) (validate : Str → Bool),
        (adminMountCheck (some stored) validate).isAuthenticated = true →
        16 ≤ stored.length) := by
  refine ⟨?_, ?_, ?_⟩
  · intro k
    simp [isAdminKeyConfigured, List.isEmpty_iff]
  · intro k c h
    simp [accessButtonDisabled, h]
  · intro stored validate h
    by_cases hg : (!stored.isEmpty && decide (16 ≤ stored.length)) = true
    · exact of_decide_eq_true (Bool.and_elim_right hg)
    · simp only [adminMountCheck, if_neg hg] at h
      exact absurd h (by simp)

/-- Claim C5, witness: a 5-character key keeps the submit button disabled. -/
theorem c5_witness :
    accessButtonDisabled "short".toList false = true :=
  c5_admin_key_length.2.1 "short".toList false (by decide)

/-- Claim C6, counterexample: the service keys of the health response type
the client consumes are not the `llm` and `vector_store` of the claim. -/
theorem c6_counterexample : healthServiceKeys ≠ specHealthServiceKeys := by
  decide

/-- Claim C6, amended: the `GET /health` response consumed by the client has
the shape with `status`, `version`, `timestamp` and `services` whose keys
are `ollama` and `chromadb`; each service value is a string, and the admin
dashboard renders a service as online exactly when that string equals
`connected` (any other value, or a missing health response, renders it
offline). -/
theorem c6_health_shape :
    healthServiceKeys = ["ollama", "chromadb"] ∧
    (∀ h : HealthStatus, ollamaBadgeOnline (some h) = true ↔ h.services.ollama = "connected") ∧
    (∀ h : HealthStatus, chromadbBadgeOnline (some h) = true ↔ h.services.chromadb = "connected") ∧
    ollamaBadgeOnline none = false ∧
    chromadbBadgeOnline none = false := by
  refine ⟨rfl, ?_, ?_, rfl, rfl⟩
  · intro h
    simp [ollamaBadgeOnline]
  · intro h
    simp [chromadbBadgeOnline]

/-- Claim C6, witness: a concrete health value with Ollama connected renders
the Ollama badge online. -/
theorem c6_witness :
    ollamaBadgeOnline (some ⟨"healthy", "1.0", "now", ⟨"connected", "disconnected"⟩⟩) = true :=
  (c6_health_shape.2.1 ⟨"healthy", "1.0", "now", ⟨"connected", "disconnected"⟩⟩).mpr rfl

/-- Claim C9: the SSE scanner of `sendMessage` is robust — a data line split
across two network reads is carried in the buffer and handled exactly as if
it had arrived in one read, a line that does not begin with the SSE data
marker is ignored, and a data payload that fails to parse is skipped without
affecting any later line of the stream. -/
theorem c9_sse_robustness :
    (∀ (parse : Parse) (st : StreamState) (x y : Str),
        '\n' ∉ st.buffer → '\n' ∉ x →
        processRead parse (processRead parse st x) y = processRead parse st (x ++ y)) ∧
    (∀ (parse : Parse) (st : StreamState) (line : Str) (rest : List Str),
        ¬ ("data: ".toList <+: line) →
        processLines parse (line :: rest) st = processLines parse rest st) ∧
    (∀ (parse : Parse) (st : StreamState) (p : Str) (rest : List Str),
        parse p = ParseResult.err → p ≠ "[DONE]".toList →
        processLines parse (("data: ".toList ++ p) :: rest) st =
        processLines parse rest st) := by
  refine ⟨?_, ?_, ?_⟩
  · intro parse st x y hb hx
    rw [processRead_no_newline parse st x hb hx]
    show processRead parse { st with buffer := st.buffer ++ x } y = _
    simp only [processRead, processLines_set_buffer]
    rw [List.append_assoc]
  · intro parse st line rest h
    simp only [processLines, if_neg h]
  · intro parse st p rest hp hd
    have hdrop : ("data: ".toList ++ p).drop 6 = p := by
      rw [show (6 : Nat) = ("data: ".toList).length from rfl]
      exact List.drop_left _ _
    simp only [processLines, List.prefix_append, if_true, hdrop, if_neg hd, hp]

/-- Claim C9, witness: the chunk payload split at an arbitrary byte boundary
across two reads is processed exactly like the unsplit line. -/
theorem c9_witness :
    processRead parseDemo
        (processRead parseDemo (initialStream []) ("data: ".toList ++ payloadHel.take 10))
        (payloadHel.drop 10 ++ ['\n'])
      = processRead parseDemo (initialStream [])
          (("data: ".toList ++ payloadHel.take 10) ++ (payloadHel.drop 10 ++ ['\n'])) :=
  c9_sse_robustness.1 parseDemo (initialStream [])
    ("data: ".toList ++ payloadHel.take 10) (payloadHel.drop 10 ++ ['\n'])
    (by decide) (by decide)

/-- Claim C10: the admin dashboard authenticates only through a server-side
validated key — on mount, authentication implies the stored key passed
re-validation and a key failing re-validation is removed instead of used; in
the gate, a key is written to session storage only when validation succeeds;
and `getAdminKey` prefers the session-validated key over the environment
key. -/
theorem c10_auth_invariants :
    (∀ (stored : Option Str) (validate : Str → Bool),
        (adminMountCheck stored validate).isAuthenticated = true →
        validate (adminMountCheck stored validate).adminApiKey = true ∧
        (adminMountCheck stored validate).storedKey =
          some (adminMountCheck stored validate).adminApiKey) ∧
    (∀ (k : Str) (validate : Str → Bool),
        16 ≤ k.length → validate k = false →
        adminMountCheck (some k) validate = ⟨none, false, []⟩) ∧
    (∀ (prior : Option Str) (k : Str) (validate : Str → Bool),
        validate k = false →
        apiKeyGateSubmit prior k validate = ⟨prior, false, []⟩) ∧
    (∀ (prior : Option Str) (k : Str) (validate : Str → Bool),
        (apiKeyGateSubmit prior k validate).isAuthenticated = true →
        validate k = true ∧ (apiKeyGateSubmit prior k validate).storedKey = some k) ∧
    (∀ (prior : Option Str) (env : Str) (validate : Str → Bool),
        validate env = false →
        apiKeyGateEnvCheck prior env validate = ⟨prior, false, []⟩) ∧
    (∀ (sessionKey envKey : Str), sessionKey ≠ [] →
        getAdminKey (some sessionKey) envKey = sessionKey) := by
  refine ⟨?_, ?_, ?_, ?_, ?_, ?_⟩
  · intro stored validate h
    cases stored with
    | none => exact absurd h (by simp [adminMountCheck])
    | some k =>
      by_cases hg : (!k.isEmpty && decide (16 ≤ k.length)) = true
      · by_cases hv : validate k = true
        · simp [adminMountCheck, hg, hv]
        · simp only [adminMountCheck, if_pos hg, if_neg hv] at h ⊢
          exact absurd h (by simp)
      · simp only [adminMountCheck, if_neg hg] at h
        exact absurd h (by simp)
  · intro k validate hlen hv
    have hg : (!k.isEmpty && decide (16 ≤ k.length)) = true := by
      have hk : k ≠ [] := by
        intro hnil
        rw [hnil] at hlen
        exact absurd hlen (by decide)
      simp [hk, List.isEmpty_iff, hlen]
    simp [adminMountCheck, hg, hv]
  · intro prior k validate hv
    simp [apiKeyGateSubmit, hv]
  · intro prior k validate h
    by_cases hv : validate k = true
    · simp [apiKeyGateSubmit, hv]
    · simp only [apiKeyGateSubmit, if_neg hv] at h
      exact absurd h (by simp)
  · intro prior env validate hv
    by_cases hc : isAdminKeyConfigured env = true
    · simp [apiKeyGateEnvCheck, hc, hv]
    · simp [apiKeyGateEnvCheck, hc]
  · intro sessionKey envKey h
    simp [getAdminKey, List.isEmpty_iff, h]

/-- Claim C10, witness: a 16-character stored key that fails server-side
re-validation on mount is removed from session storage and not used. -/
theorem c10_witness :
    adminMountCheck (some "0123456789abcdef".toList) (fun _ => false) = ⟨none, false, []⟩ :=
  c10_auth_invariants.2.1 "0123456789abcdef".toList (fun _ => false) (by decide) rfl

end Portfolio
